import Mathlib

/-!
Verification of the batched multi-entity execution engine of gosto
(src/gosto.go): key extraction, chunk planning, concurrent dispatch merge,
outcome collapsing (`realError`), the field-mismatch tolerance filter, the
query/iterator paths, and the itemized-error inspection helper (`NotFound`).

Machine integers from Go are modelled as `Nat`/`Int`; Go's integer division
truncates toward zero, which is `Int.tdiv` here.  Errors (`error` values)
are modelled as `Option DSErr` (`none` is Go's `nil`), and
`datastore.MultiError` as a list of such slots.
-/

/-- Error values of the underlying datastore service (external collaborator):
the sentinel errors `ErrNoSuchEntity`, `ErrInvalidEntityType`,
`ErrInvalidKey`, the struct-typed `*ErrFieldMismatch` (with its fields), and
`other` for every further error value (wrapped RPC failures, formatted
errors, ...).  Two distinct error values may render to the same text, as in
Go, since `other` carries an arbitrary message. -/
inductive DSErr where
  | noSuchEntity
  | invalidEntityType
  | invalidKey
  | fieldMismatch (structType fieldName reason : String)
  | other (msg : String)
deriving DecidableEq

/-- Textual representation of an error, Go's `err.Error()`.  The sentinel
texts are the ones of the datastore package; what matters for the embedding
is only that `realError` compares errors by this rendering. -/
def DSErr.msg : DSErr → String
  | .noSuchEntity => "datastore: no such entity"
  | .invalidEntityType => "datastore: invalid entity type"
  | .invalidKey => "datastore: invalid key"
  | .fieldMismatch s f r =>
      "datastore: cannot load field " ++ f ++ " into a " ++ s ++ ": " ++ r
  | .other m => m

/-- Type assertion `_, ok := err.(*datastore.ErrFieldMismatch)`, the body of
`errFieldMismatch` (gosto.go:382-385). -/
def DSErr.isFieldMismatch : DSErr → Bool
  | .fieldMismatch _ _ _ => true
  | _ => false

/-- An error as returned from the public operations: either a scalar error
or a `datastore.MultiError` (a slice of per-index error slots). -/
inductive GoErr where
  | simple (e : DSErr)
  | multi (errs : List (Option DSErr))
deriving DecidableEq

/-- One iteration of the comparison loop of `realError` (gosto.go:307-317):
two slots agree when they are equal as nil values, or are both non-nil with
the same `Error()` string. -/
def agreeErr (a b : Option DSErr) : Bool :=
  match a, b with
  | none, none => true
  | some x, some y => x.msg == y.msg
  | _, _ => false

/-- The outcome collapser `realError` (gosto.go:302-329).  An empty
MultiError collapses to nil; if some slot disagrees with the first slot the
full MultiError is returned (the loop returns at the first disagreement,
which yields the same value as scanning all slots); otherwise the common
first error decides: a `*ErrFieldMismatch`, `ErrInvalidEntityType` or
`ErrNoSuchEntity` is always returned itemized as the full MultiError, and
any other uniform error collapses to the scalar first slot (`init`), which
is nil for an all-nil array. -/
def realError (multiError : List (Option DSErr)) : Option GoErr :=
  match multiError with
  | [] => none
  | init :: rest =>
    if rest.all (fun e => agreeErr init e) then
      match init with
      | none => none
      | some e =>
        if e.isFieldMismatch || e == DSErr.invalidEntityType
            || e == DSErr.noSuchEntity then
          some (GoErr.multi multiError)
        else
          some (GoErr.simple e)
    else
      some (GoErr.multi multiError)

/-- The itemized inspection helper `NotFound` (gosto.go:374-379): true iff
the error is a MultiError whose slot `idx` (in range) is the
`ErrNoSuchEntity` sentinel. -/
def NotFound (err : Option GoErr) (idx : Nat) : Bool :=
  match err with
  | some (GoErr.multi merr) =>
      decide (idx < merr.length) && (merr.getD idx none == some DSErr.noSuchEntity)
  | _ => false

/-- The per-slot mismatch filter shared by the three outcome-producing read
sites: an outcome is kept iff it is non-nil and not a tolerated field
mismatch.  This is the condition of gosto.go:216 (in-transaction GetMulti),
gosto.go:267 (chunked GetMulti, negated there) and gosto.go:496
(Iterator.Next), with `ignore` standing for the global
`IgnoreFieldMismatch` toggle. -/
def keepErr (ignore : Bool) (e : Option DSErr) : Option DSErr :=
  match e with
  | none => none
  | some err => if ignore && err.isFieldMismatch then none else some err

/-- The scalar filter of `GetAll` (gosto.go:427-435): a field-mismatch error
is erased when the toggle is on and kept when it is off; every other error
is kept (the source returns it immediately). -/
def getAllFilter (ignore : Bool) (err : Option DSErr) : Option DSErr :=
  match err with
  | none => none
  | some e => if e.isFieldMismatch then (if ignore then none else some e) else some e

/-- The datastore key (external collaborator), restricted to the fields this
engine reads: kind, string name and numeric id.  `incomplete` is the
library's `Key.Incomplete`: neither a name nor a non-zero id. -/
structure DKey where
  kind : String
  name : String
  id : Int
deriving DecidableEq

/-- Go `key.Incomplete()`: `k.Name == "" && k.ID == 0`. -/
def DKey.incomplete (k : DKey) : Bool :=
  k.name == "" && k.id == 0

/-- Modelled from the spec: the Key Resolver contract
`resolve(entity) -> (Key, hasExplicitStringIdentity bool, error)`
(section 4.1).  The reflection-based `getStructKey` is not among the source
files here, only its callers are, so a resolution is taken abstractly:
either a failure, or a derived key together with the flag telling whether
the entity explicitly set a string identity. -/
inductive Resolution where
  | failed (msg : String)
  | resolved (key : DKey) (hasStringID : Bool)
deriving DecidableEq

/-- Whether `getStructKey` succeeded for this element. -/
def Resolution.isResolved : Resolution → Bool
  | .failed _ => false
  | .resolved _ _ => true

/-- Whether the element derived an incomplete key. -/
def Resolution.keyIncomplete : Resolution → Bool
  | .failed _ => false
  | .resolved k _ => k.incomplete

/-- Whether the element derived an incomplete key although it explicitly set
a (necessarily empty) string identity — the user error rejected on create
intent. -/
def Resolution.incompleteWithStringID : Resolution → Bool
  | .failed _ => false
  | .resolved k b => k.incomplete && b

/-- Errors produced by `extractKeys` (gosto.go:45-67), indexed by the
element type so that the missing-identity error can carry the offending
element exactly as the `fmt.Errorf` in the source formats it. -/
inductive GErr (α : Type) where
  | resolveFailed (msg : String)
  | missingIdentity (elem : α)
  | emptyStringIdentity
deriving DecidableEq

/-- Key extraction for a batch (gosto.go:45-67), after the slice shape
check: for each element in order, resolve its key; a resolver error aborts;
on a non-put request an incomplete key aborts with the cannot-find-a-key
error naming the element (gosto.go:59-61); on a put request an incomplete
key whose entity explicitly set a string identity aborts with the
empty-string-id error (gosto.go:61-63); otherwise the key is collected. -/
def extractKeys {α : Type} (getStructKey : α → Resolution) (src : List α)
    (putRequest : Bool) : Except (GErr α) (List DKey) :=
  match src with
  | [] => Except.ok []
  | x :: xs =>
    match getStructKey x with
    | Resolution.failed m => Except.error (GErr.resolveFailed m)
    | Resolution.resolved key hasStringID =>
      if !putRequest && key.incomplete then
        Except.error (GErr.missingIdentity x)
      else if putRequest && key.incomplete && hasStringID then
        Except.error GErr.emptyStringIdentity
      else
        match extractKeys getStructKey xs putRequest with
        | Except.error e => Except.error e
        | Except.ok keys => Except.ok (key :: keys)

/-- Per-call capacity constants (gosto.go:121, 195, 298). -/
def putMultiLimit : Nat := 500

/-- Read capacity constant (gosto.go:195). -/
def getMultiLimit : Nat := 1000

/-- Delete capacity constant (gosto.go:298). -/
def deleteMultiLimit : Nat := 500

/-- Goroutine count `(n-1)/L + 1` (gosto.go:136, 241, 339).  Go's `int`
division truncates toward zero, so the subtraction is carried out in `Int`
with `Int.tdiv`; for `n = 0` and `L > 1` this gives `(-1)/L + 1 = 1`. -/
def numGoroutines (n L : Nat) : Nat :=
  (Int.tdiv ((n : Int) - 1) (L : Int) + 1).toNat

/-- The chunk plan: goroutine `i` handles the index range
`[i*L, min ((i+1)*L) n)` (gosto.go:142-146 and identically 249-253,
345-349). -/
def chunksOf (n L : Nat) : List (Nat × Nat) :=
  (List.range (numGoroutines n L)).map (fun i => (i * L, min ((i + 1) * L) n))

/-- Concatenation of the index ranges of a chunk plan, for stating
coverage. -/
def joinChunks (cs : List (Nat × Nat)) : List Nat :=
  cs.flatMap (fun c => List.range' c.1 (c.2 - c.1))

/-- The chunk plan `PutMulti` executes for a batch of `n` keys
(gosto.go:136-146): there is no empty-batch guard, so even `n = 0` yields
one (empty) chunk. -/
def putMultiPlan (n : Nat) : List (Nat × Nat) :=
  chunksOf n putMultiLimit

/-- The chunk plan `DeleteMulti` executes (gosto.go:333-349): an empty batch
returns immediately (gosto.go:333-335), otherwise the plan is as in
`PutMulti`. -/
def deleteMultiPlan (n : Nat) : List (Nat × Nat) :=
  if n = 0 then [] else chunksOf n deleteMultiLimit

/-- Number of datastore service calls `PutMulti` issues for a batch: none
when key extraction fails (gosto.go:128-131), otherwise one per planned
chunk (gosto.go:139-147). -/
def putMultiCalls {α : Type} (getStructKey : α → Resolution) (src : List α) : Nat :=
  match extractKeys getStructKey src true with
  | Except.error _ => 0
  | Except.ok keys => (putMultiPlan keys.length).length

/-- The chunk plan the non-transaction path of `GetMulti` executes
(gosto.go:234-253).  The source computes the goroutine count from `dskeys`,
a slice that is declared (gosto.go:234) and never appended to, rather than
from the extracted `keys`; the extracted keys play no part in the plan. -/
def getMultiPlan (keys : List DKey) : List (Nat × Nat) :=
  let dskeys : List DKey := []
  chunksOf dskeys.length getMultiLimit

/-- The key slices the non-transaction `GetMulti` hands to the service, one
per planned chunk: slices of the never-populated `dskeys`
(gosto.go:249-254). -/
def getMultiDispatchedKeys (keys : List DKey) : List (List DKey) :=
  let dskeys : List DKey := []
  (getMultiPlan keys).map (fun c => (dskeys.drop c.1).take (c.2 - c.1))

/-- Number of datastore service calls `GetMulti` issues: none when key
extraction fails (gosto.go:201-205), otherwise one per planned chunk. -/
def getMultiCallCount {α : Type} (getStructKey : α → Resolution) (src : List α) : Nat :=
  match extractKeys getStructKey src false with
  | Except.error _ => 0
  | Except.ok keys => (getMultiPlan keys).length

/-- A datastore batch-call response: success, a single non-itemized error,
or an itemized `MultiError` aligned to the input order (spec section 6). -/
inductive SvcResp where
  | single (e : DSErr)
  | itemized (errs : List (Option DSErr))
deriving DecidableEq

/-- Pointwise rewrite of an outcome array: slot `j` (counting from `start`)
becomes `f j slot`.  Helper for expressing the in-place writes of the
dispatch loops. -/
def overwriteFrom (f : Nat → Option DSErr → Option DSErr) :
    Nat → List (Option DSErr) → List (Option DSErr)
  | _, [] => []
  | start, x :: xs => f start x :: overwriteFrom f (start + 1) xs

/-- The broadcast loop `for j := lo; j < hi; j++ multiErr j = err`
(gosto.go:154-156, 223-225, 261-263, 357-359): every slot in `[lo, hi)`
becomes the single error. -/
def writeRange (m : List (Option DSErr)) (lo hi : Nat) (e : DSErr) :
    List (Option DSErr) :=
  overwriteFrom (fun j x => if lo ≤ j && j < hi then some e else x) 0 m

/-- Go's `copy(multiErr lo:hi , merr)` (gosto.go:159, 362): slot `lo + k`
receives `merr k` for `k < min (hi - lo) (length merr)`; other slots are
unchanged. -/
def copyRange (m : List (Option DSErr)) (lo hi : Nat) (src : List (Option DSErr)) :
    List (Option DSErr) :=
  overwriteFrom
    (fun j x =>
      if lo ≤ j && j < hi && decide (j - lo < src.length) then src.getD (j - lo) none
      else x)
    0 m

/-- Merging one chunk's service response into the shared outcome array, the
body of the goroutines of `PutMulti` and `DeleteMulti` (gosto.go:147-160 and
350-363): a nil response writes nothing, a non-MultiError response is
broadcast over the chunk range, a MultiError response is copied slotwise. -/
def applyChunk (resp : Option SvcResp) (lo hi : Nat) (m : List (Option DSErr)) :
    List (Option DSErr) :=
  match resp with
  | none => m
  | some (SvcResp.single e) => writeRange m lo hi e
  | some (SvcResp.itemized merr) => copyRange m lo hi merr

/-- The shared outcome array after all chunk goroutines of `PutMulti` or
`DeleteMulti` have completed.  The goroutines write to disjoint index
ranges under the mutex, so the barrier-joined result equals merging the
chunks in order; `svc lo hi` is the service response for the chunk slice
`[lo, hi)`. -/
def dispatchErrs (svc : Nat → Nat → Option SvcResp) (n L : Nat) :
    List (Option DSErr) :=
  (chunksOf n L).foldl (fun acc c => applyChunk (svc c.1 c.2) c.1 c.2 acc)
    (List.replicate n none)

/-- The `any` flag of the dispatch loops (gosto.go:150, 353): set iff some
chunk's service call returned an error. -/
def dispatchAny (svc : Nat → Nat → Option SvcResp) (n L : Nat) : Bool :=
  (chunksOf n L).any (fun c => (svc c.1 c.2).isSome)

/-- The error `PutMulti` returns once keys are extracted (gosto.go:133-168):
the collapsed outcome array when some chunk failed, nil otherwise. -/
def putMultiOutcome (svc : Nat → Nat → Option SvcResp) (n : Nat) : Option GoErr :=
  if dispatchAny svc n putMultiLimit then realError (dispatchErrs svc n putMultiLimit)
  else none

/-- The error `DeleteMulti` returns (gosto.go:332-371), including the
empty-batch early return. -/
def deleteMultiOutcome (svc : Nat → Nat → Option SvcResp) (n : Nat) : Option GoErr :=
  if n = 0 then none
  else if dispatchAny svc n deleteMultiLimit then
    realError (dispatchErrs svc n deleteMultiLimit)
  else none

/-- The itemized-response loop of the chunked `GetMulti`
(gosto.go:266-275): for each position `i` of the chunk with global index
`idx` (from `dixs`), a kept outcome is written to slot `idx`; nil and
tolerated field-mismatch outcomes are skipped. -/
def applyItemized (ignore : Bool) (merr : List (Option DSErr))
    (dixsSlice : List Nat) (m : List (Option DSErr)) : List (Option DSErr) :=
  dixsSlice.enum.foldl
    (fun acc p =>
      match keepErr ignore (merr.getD p.1 none) with
      | none => acc
      | some e => acc.set p.2 (some e))
    m

/-- The non-transaction path of `GetMulti` after key extraction
(gosto.go:234-285).  The slices `dskeys` and `dixs` are declared in the
source (gosto.go:234-238) and never appended to, so the chunk plan ranges
over an empty slice; the outcome array still has one slot per extracted
key (gosto.go:209). -/
def getMultiNonTxn (ignore : Bool) (svc : List DKey → Option SvcResp)
    (keys : List DKey) : Option GoErr :=
  let dskeys : List DKey := []
  let dixs : List Nat := []
  let cs := chunksOf dskeys.length getMultiLimit
  let m :=
    cs.foldl
      (fun acc c =>
        match svc ((dskeys.drop c.1).take (c.2 - c.1)) with
        | none => acc
        | some (SvcResp.single e) => writeRange acc c.1 c.2 e
        | some (SvcResp.itemized merr) =>
            applyItemized ignore merr ((dixs.drop c.1).take (c.2 - c.1)) acc)
      (List.replicate keys.length none)
  let anyErr := cs.any (fun c => (svc ((dskeys.drop c.1).take (c.2 - c.1))).isSome)
  if anyErr then realError m else none

/-- `Get` for a single destination whose key extraction succeeded
(gosto.go:174-193): run `GetMulti` on the one-element batch and unwrap a
MultiError result to its first slot. -/
def getOutcome (ignore : Bool) (svc : List DKey → Option SvcResp) (k : DKey) :
    Option GoErr :=
  match getMultiNonTxn ignore svc [k] with
  | some (GoErr.multi merr) => (merr.getD 0 none).map GoErr.simple
  | r => r

/-- The outcome array built by the in-transaction path of `GetMulti` for an
itemized service response (gosto.go:214-220): slot `i` holds the kept
outcome of `merr i`, nil outcomes and tolerated field mismatches stay
nil. -/
def txnSlots (ignore : Bool) (n : Nat) (merr : List (Option DSErr)) :
    List (Option DSErr) :=
  (List.range n).map (fun i => keepErr ignore (merr.getD i none))

/-- The in-transaction path of `GetMulti` after key extraction
(gosto.go:211-232): a nil service error returns nil; an itemized error is
filtered slotwise and collapsed when any slot was kept; a single error is
broadcast to every slot and collapsed (gosto.go:221-229). -/
def txnGetMulti (ignore : Bool) (n : Nat) (resp : Option SvcResp) : Option GoErr :=
  match resp with
  | none => none
  | some (SvcResp.single e) => realError (List.replicate n (some e))
  | some (SvcResp.itemized merr) =>
    let m := txnSlots ignore n merr
    if m.any (fun x => x.isSome) then realError m else none

/-- A concrete store service that reports every requested key as absent,
itemized per element as the service contract requires, and succeeds on an
empty request. -/
def svcNotFound (ks : List DKey) : Option SvcResp :=
  if ks.isEmpty then none
  else some (SvcResp.itemized (ks.map (fun _ => some DSErr.noSuchEntity)))

/-- What `Iterator.Next` (gosto.go:494-506) produces: the key and error
returned to the caller, and whether the destination struct actually had the
resolved key stamped onto it. -/
structure NextRes where
  key : DKey
  err : Option DSErr
  stamped : Bool
deriving DecidableEq

/-- `Iterator.Next` (gosto.go:494-506) after the wrapped cursor produced
`(k, rawErr)`: a kept error (non-nil and not a tolerated field mismatch) is
returned as is; otherwise, when a destination is supplied, `setStructKey`
is invoked and its error discarded — the destination is stamped only if
`setKeyErr` is nil, yet the caller always receives `(k, nil)`. -/
def iterNext (ignore : Bool) (k : DKey) (rawErr : Option DSErr)
    (dstPresent : Bool) (setKeyErr : Option DSErr) : NextRes :=
  match rawErr with
  | some e =>
    if !ignore || !e.isFieldMismatch then ⟨k, some e, false⟩
    else ⟨k, none, dstPresent && setKeyErr.isNone⟩
  | none => ⟨k, none, dstPresent && setKeyErr.isNone⟩

/-- Uniformity of an outcome array in the words of the collapse policy:
every slot agrees with the first slot in nil-ness and, when non-nil, has an
identical textual representation. -/
def uniformB (m : List (Option DSErr)) : Bool :=
  m.all (fun x =>
    (x.isNone == (m.getD 0 none).isNone)
      && (x.map DSErr.msg == (m.getD 0 none).map DSErr.msg))

/-- The error kinds the datastore reports itemized even for a uniform
cause: field-shape mismatch, invalid entity type, not found. -/
def isItemizedAlways (e : DSErr) : Bool :=
  e.isFieldMismatch || e == DSErr.invalidEntityType || e == DSErr.noSuchEntity

/-- Value of slot `j` after one chunk response is merged over `[lo, hi)`,
as a function of the slot's previous value; the pointwise reading of
`applyChunk`. -/
def stepFn (resp : Option SvcResp) (lo hi j : Nat) (x : Option DSErr) : Option DSErr :=
  match resp with
  | none => x
  | some (SvcResp.single e) => if lo ≤ j && j < hi then some e else x
  | some (SvcResp.itemized src) =>
      if lo ≤ j && j < hi && decide (j - lo < src.length) then src.getD (j - lo) none
      else x

/-- A batch of 1200 distinct complete keys, the batch size of the chunked
dispatch example. -/
def batch1200 : List DKey :=
  (List.range 1200).map (fun (i : Nat) => DKey.mk "Widget" "" (Int.ofNat i + 1))

/-- Test service for the dispatch-merge example: the first chunk fails with
a single non-itemized error, every other chunk with an itemized one. -/
def svcFixture : Nat → Nat → Option SvcResp := fun lo _ =>
  if lo = 0 then some (SvcResp.single (DSErr.other "boom"))
  else some (SvcResp.itemized [some DSErr.noSuchEntity])

/-- Test resolver for put requests: element 0 derives an incomplete key with
no explicit string identity, every other element derives an incomplete key
with an explicitly set (empty) string identity. -/
def gkPutFixture : Nat → Resolution := fun x =>
  if x = 0 then Resolution.resolved (DKey.mk "K" "" 0) false
  else Resolution.resolved (DKey.mk "K" "" 0) true

/-- Test resolver for read requests: element 0 derives a complete (named)
key, every other element derives an incomplete key. -/
def gkGetFixture : Nat → Resolution := fun x =>
  Resolution.resolved (DKey.mk "K" (if x = 0 then "a" else "") 0) false

/-! ### Helper lemmas -/

theorem overwriteFrom_length (f : Nat → Option DSErr → Option DSErr) :
    ∀ (s : Nat) (m : List (Option DSErr)), (overwriteFrom f s m).length = m.length := by
  intro s m
  induction m generalizing s with
  | nil => rfl
  | cons x xs ih => simp [overwriteFrom, ih]

theorem overwriteFrom_getElem? (f : Nat → Option DSErr → Option DSErr) :
    ∀ (m : List (Option DSErr)) (s j : Nat),
      (overwriteFrom f s m)[j]? = (m[j]?).map (f (s + j)) := by
  intro m
  induction m with
  | nil => intro s j; simp [overwriteFrom]
  | cons x xs ih =>
    intro s j
    cases j with
    | zero => simp [overwriteFrom]
    | succ j' =>
      calc (overwriteFrom f s (x :: xs))[j' + 1]?
          = (overwriteFrom f (s + 1) xs)[j']? := by simp [overwriteFrom]
        _ = (xs[j']?).map (f (s + 1 + j')) := ih (s + 1) j'
        _ = ((x :: xs)[j' + 1]?).map (f (s + (j' + 1))) := by
            rw [List.getElem?_cons_succ, show s + 1 + j' = s + (j' + 1) by omega]

theorem map_congr_opt (o : Option (Option DSErr))
    (g h : Option DSErr → Option DSErr) (H : ∀ x, g x = h x) :
    o.map g = o.map h := by
  cases o <;> simp [H]

theorem applyChunk_getElem? (resp : Option SvcResp) (lo hi : Nat)
    (m : List (Option DSErr)) (j : Nat) :
    (applyChunk resp lo hi m)[j]? = (m[j]?).map (stepFn resp lo hi j) := by
  cases resp with
  | none =>
    show m[j]? = (m[j]?).map (stepFn none lo hi j)
    cases m[j]? <;> rfl
  | some r =>
    cases r with
    | single e =>
      show (writeRange m lo hi e)[j]? = _
      rw [writeRange, overwriteFrom_getElem?, Nat.zero_add]
      exact map_congr_opt _ _ _ (fun x => by simp [stepFn])
    | itemized merr =>
      show (copyRange m lo hi merr)[j]? = _
      rw [copyRange, overwriteFrom_getElem?, Nat.zero_add]
      exact map_congr_opt _ _ _ (fun x => by simp [stepFn])

theorem applyChunk_length (resp : Option SvcResp) (lo hi : Nat)
    (m : List (Option DSErr)) : (applyChunk resp lo hi m).length = m.length := by
  cases resp with
  | none => rfl
  | some r => cases r <;> simp [applyChunk, writeRange, copyRange, overwriteFrom_length]

theorem stepFn_out (resp : Option SvcResp) (lo hi j : Nat) (x : Option DSErr)
    (h : j < lo ∨ hi ≤ j) : stepFn resp lo hi j x = x := by
  cases resp with
  | none => rfl
  | some r =>
    cases r with
    | single e =>
      simp only [stepFn]
      rw [if_neg]
      simp only [Bool.and_eq_true, decide_eq_true_eq, not_and]
      omega
    | itemized src =>
      simp only [stepFn]
      rw [if_neg]
      simp only [Bool.and_eq_true, decide_eq_true_eq, not_and]
      omega

theorem lt_div_succ_mul (a b : Nat) (hb : 0 < b) : a < (a / b + 1) * b := by
  have h1 := Nat.div_add_mod a b
  have h2 := Nat.mod_lt a hb
  have h3 : a < b * (a / b) + b := by omega
  calc a < b * (a / b) + b := h3
    _ = (a / b + 1) * b := by ring

theorem numGoroutines_eq (n L : Nat) (hn : 0 < n) :
    numGoroutines n L = (n - 1) / L + 1 := by
  unfold numGoroutines
  rw [show ((n : Int) - 1) = ((n - 1 : Nat) : Int) by omega, ← Int.ofNat_tdiv]
  rw [show (((n - 1) / L : Nat) : Int) + 1 = (((n - 1) / L + 1 : Nat) : Int) by omega]
  exact Int.toNat_natCast _

theorem chunksOf_length (n L : Nat) : (chunksOf n L).length = numGoroutines n L := by
  simp [chunksOf]

theorem map_pointwise_id (o : Option (Option DSErr))
    (g : Option DSErr → Option DSErr) (H : ∀ x, g x = x) : o.map g = o := by
  cases o <;> simp [H]

theorem dispatchErrs_eq_fold (svc : Nat → Nat → Option SvcResp) (n L : Nat) :
    dispatchErrs svc n L =
      (List.range (numGoroutines n L)).foldl
        (fun acc i =>
          applyChunk (svc (i * L) (min ((i + 1) * L) n)) (i * L) (min ((i + 1) * L) n) acc)
        (List.replicate n none) := by
  rw [dispatchErrs, chunksOf, List.foldl_map]

theorem dispatchFold_getElem? (svc : Nat → Nat → Option SvcResp) (n L : Nat)
    (hL : 0 < L) :
    ∀ (g : Nat) (m : List (Option DSErr)) (j : Nat),
      ((List.range g).foldl
          (fun acc i =>
            applyChunk (svc (i * L) (min ((i + 1) * L) n)) (i * L) (min ((i + 1) * L) n) acc)
          m)[j]?
        = if j < n ∧ j / L < g then
            (m[j]?).map
              (stepFn (svc ((j / L) * L) (min ((j / L + 1) * L) n)) ((j / L) * L)
                (min ((j / L + 1) * L) n) j)
          else m[j]? := by
  intro g
  induction g with
  | zero =>
    intro m j
    simp
  | succ g ih =>
    intro m j
    rw [List.range_succ g, List.foldl_append, List.foldl_cons, List.foldl_nil,
      applyChunk_getElem?, ih m j]
    by_cases hn : j < n
    · rcases Nat.lt_trichotomy (j / L) g with hlt | heq | hgt
      · rw [if_pos ⟨hn, hlt⟩, if_pos ⟨hn, Nat.lt_succ_of_lt hlt⟩, Option.map_map]
        refine map_congr_opt _ _ _ (fun x => ?_)
        have h1 : j < (j / L + 1) * L := lt_div_succ_mul j L hL
        have h2 : (j / L + 1) * L ≤ g * L := Nat.mul_le_mul_right L hlt
        exact stepFn_out _ _ _ _ _ (Or.inl (by omega))
      · rw [if_neg (by omega), if_pos ⟨hn, by omega⟩, heq]
      · rw [if_neg (by omega), if_neg (by omega)]
        refine map_pointwise_id _ _ (fun x => ?_)
        have h1 : (g + 1) * L ≤ (j / L) * L := Nat.mul_le_mul_right L (by omega)
        have h2 : (j / L) * L ≤ j := Nat.div_mul_le_self j L
        exact stepFn_out _ _ _ _ _ (Or.inr (by omega))
    · rw [if_neg (by omega), if_neg (by omega)]
      refine map_pointwise_id _ _ (fun x => ?_)
      exact stepFn_out _ _ _ _ _ (Or.inr (by omega))

theorem dispatchErrs_getElem? (svc : Nat → Nat → Option SvcResp) (n L : Nat)
    (hL : 0 < L) (j : Nat) (hj : j < n) :
    (dispatchErrs svc n L)[j]? =
      some (stepFn (svc ((j / L) * L) (min ((j / L + 1) * L) n)) ((j / L) * L)
        (min ((j / L + 1) * L) n) j none) := by
  rw [dispatchErrs_eq_fold, dispatchFold_getElem? svc n L hL (numGoroutines n L) _ j]
  have hn : 0 < n := Nat.lt_of_le_of_lt (Nat.zero_le j) hj
  have hg : j / L < numGoroutines n L := by
    rw [numGoroutines_eq n L hn]
    have h1 : j / L ≤ (n - 1) / L := Nat.div_le_div_right (by omega)
    omega
  rw [if_pos ⟨hj, hg⟩, List.getElem?_replicate, if_pos hj]
  rfl

theorem dispatchErrs_length (svc : Nat → Nat → Option SvcResp) (n L : Nat) :
    (dispatchErrs svc n L).length = n := by
  rw [dispatchErrs]
  have h : ∀ (cs : List (Nat × Nat)) (m : List (Option DSErr)),
      (cs.foldl (fun acc c => applyChunk (svc c.1 c.2) c.1 c.2 acc) m).length
        = m.length := by
    intro cs
    induction cs with
    | nil => intro m; rfl
    | cons c cs ih => intro m; rw [List.foldl_cons, ih, applyChunk_length]
  rw [h, List.length_replicate]

theorem joinChunks_prefix (n L : Nat) (hL : 0 < L) :
    ∀ g : Nat,
      joinChunks ((List.range g).map (fun i => (i * L, min ((i + 1) * L) n)))
        = List.range' 0 (min (g * L) n) := by
  intro g
  induction g with
  | zero => simp [joinChunks]
  | succ g ih =>
    rw [List.range_succ g, List.map_append, joinChunks, List.flatMap_append,
      ← joinChunks, ih]
    simp only [List.map_cons, List.map_nil, joinChunks, List.flatMap_cons,
      List.flatMap_nil, List.append_nil]
    by_cases hgn : n ≤ g * L
    · have h1 : min (g * L) n = n := by omega
      have h2 : min ((g + 1) * L) n = n := by
        have : g * L ≤ (g + 1) * L := Nat.mul_le_mul_right L (by omega)
        omega
      rw [h1, h2]
      have h3 : n - g * L = 0 := by omega
      rw [h3]
      simp
    · have h1 : min (g * L) n = g * L := by omega
      rw [h1]
      have h2 := List.range'_append 0 (g * L) (min ((g + 1) * L) n - g * L) 1
      simp only [Nat.one_mul, Nat.zero_add] at h2
      rw [h2]
      have h3 : g * L ≤ (g + 1) * L := Nat.mul_le_mul_right L (by omega)
      have h4 : min ((g + 1) * L) n - g * L + g * L = min ((g + 1) * L) n := by omega
      rw [h4]

theorem numGoroutines_mul_ge (n L : Nat) (hL : 0 < L) (hn : 0 < n) :
    n ≤ numGoroutines n L * L := by
  rw [numGoroutines_eq n L hn]
  have h1 : n - 1 < ((n - 1) / L + 1) * L := lt_div_succ_mul (n - 1) L hL
  omega

theorem joinChunks_chunksOf (n L : Nat) (hL : 0 < L) (hn : 0 < n) :
    joinChunks (chunksOf n L) = List.range n := by
  rw [chunksOf, joinChunks_prefix n L hL]
  have h1 : min (numGoroutines n L * L) n = n := by
    have := numGoroutines_mul_ge n L hL hn
    omega
  rw [h1, List.range_eq_range' n]

theorem uniformB_cons (init : Option DSErr) (rest : List (Option DSErr)) :
    uniformB (init :: rest) = rest.all (fun e => agreeErr init e) := by
  have hhead : (init :: rest).getD 0 none = init := rfl
  rw [uniformB, hhead, List.all_cons]
  simp only [beq_self_eq_true, Bool.and_self, Bool.true_and]
  refine congrArg rest.all ?_
  funext x
  cases init with
  | none => cases x <;> simp [agreeErr]
  | some b =>
    cases x with
    | none => simp [agreeErr]
    | some a =>
      simp only [agreeErr, Option.isNone, Option.map_some']
      rcases Decidable.em (a.msg = b.msg) with h | h
      · simp [h]
      · simp [h, Ne.symm h]

theorem extractKeys_put_ok {α : Type} (gk : α → Resolution) :
    ∀ src : List α,
      (∀ x ∈ src, (gk x).isResolved = true ∧ (gk x).incompleteWithStringID = false) →
      ∃ keys, extractKeys gk src true = Except.ok keys ∧ keys.length = src.length := by
  intro src
  induction src with
  | nil => intro _; exact ⟨[], rfl, rfl⟩
  | cons x xs ih =>
    intro h
    obtain ⟨h1, h2⟩ := h x (List.mem_cons_self x xs)
    obtain ⟨keys, hk, hlen⟩ := ih (fun y hy => h y (List.mem_cons_of_mem x hy))
    cases hgk : gk x with
    | failed m => rw [hgk] at h1; simp [Resolution.isResolved] at h1
    | resolved key b =>
      have h2' : (key.incomplete && b) = false := by
        rw [hgk] at h2
        simpa [Resolution.incompleteWithStringID] using h2
      refine ⟨key :: keys, ?_, by simp [hlen]⟩
      simp [extractKeys, hgk, h2', hk]

theorem extractKeys_put_empty {α : Type} (gk : α → Resolution) :
    ∀ src : List α,
      (∀ x ∈ src, (gk x).isResolved = true) →
      (∃ x ∈ src, (gk x).incompleteWithStringID = true) →
      extractKeys gk src true = Except.error GErr.emptyStringIdentity := by
  intro src
  induction src with
  | nil => intro _ h2; obtain ⟨x, hx, _⟩ := h2; simp at hx
  | cons x xs ih =>
    intro h1 h2
    have hr := h1 x (List.mem_cons_self x xs)
    cases hgk : gk x with
    | failed m => rw [hgk] at hr; simp [Resolution.isResolved] at hr
    | resolved key b =>
      by_cases hb : (key.incomplete && b) = true
      · simp [extractKeys, hgk, hb]
      · have hb' : (key.incomplete && b) = false := by
          cases hc : (key.incomplete && b) with
          | false => rfl
          | true => exact absurd hc hb
        have hx2 : ∃ y ∈ xs, (gk y).incompleteWithStringID = true := by
          obtain ⟨y, hy, hyw⟩ := h2
          rcases List.mem_cons.mp hy with rfl | hy'
          · rw [hgk] at hyw
            simp [Resolution.incompleteWithStringID] at hyw
            simp [hyw] at hb'
          · exact ⟨y, hy', hyw⟩
        have hrec := ih (fun y hy => h1 y (List.mem_cons_of_mem x hy)) hx2
        simp [extractKeys, hgk, hb', hrec]

theorem extractKeys_get_missing {α : Type} (gk : α → Resolution) :
    ∀ src : List α,
      (∀ x ∈ src, (gk x).isResolved = true) →
      (∃ x ∈ src, (gk x).keyIncomplete = true) →
      ∃ x ∈ src, (gk x).keyIncomplete = true ∧
        extractKeys gk src false = Except.error (GErr.missingIdentity x) := by
  intro src
  induction src with
  | nil => intro _ h2; obtain ⟨x, hx, _⟩ := h2; simp at hx
  | cons x xs ih =>
    intro h1 h2
    have hr := h1 x (List.mem_cons_self x xs)
    cases hgk : gk x with
    | failed m => rw [hgk] at hr; simp [Resolution.isResolved] at hr
    | resolved key b =>
      by_cases hinc : key.incomplete = true
      · refine ⟨x, List.mem_cons_self x xs, ?_, ?_⟩
        · rw [hgk]; simp [Resolution.keyIncomplete, hinc]
        · simp [extractKeys, hgk, hinc]
      · have hinc' : key.incomplete = false := by
          cases hc : key.incomplete with
          | false => rfl
          | true => exact absurd hc hinc
        obtain ⟨y, hy, hyw⟩ := h2
        rcases List.mem_cons.mp hy with rfl | hy'
        · rw [hgk] at hyw
          simp [Resolution.keyIncomplete] at hyw
          simp [hyw] at hinc'
        · obtain ⟨z, hz, hzw, hzeq⟩ :=
            ih (fun u hu => h1 u (List.mem_cons_of_mem x hu)) ⟨y, hy', hyw⟩
          refine ⟨z, List.mem_cons_of_mem x hz, hzw, ?_⟩
          simp [extractKeys, hgk, hinc', hzeq]

theorem txnSlots_getD (ignore : Bool) (n : Nat) (merr : List (Option DSErr))
    (i : Nat) (hi : i < n) :
    (txnSlots ignore n merr).getD i none = keepErr ignore (merr.getD i none) := by
  rw [txnSlots]
  have hlen : i < ((List.range n).map
      (fun i => keepErr ignore (merr.getD i none))).length := by simp [hi]
  rw [List.getD_eq_getElem _ _ hlen]
  simp

/-! ### Claim theorems -/

/-- C1: the collapser `realError` applies its rules in order: an empty
outcome array yields nil; an all-nil array yields nil; a uniform array
(every slot agreeing with the first in nil-ness and, when non-nil, in
textual representation) whose common error is a field-shape mismatch,
invalid-entity-type or not-found kind is returned as the full itemized
array; a uniform array of any other kind collapses to the representative
first error; a mixed array is returned in full. -/
theorem C1_collapse_rules :
    realError [] = none ∧
    (∀ m : List (Option DSErr), (∀ x ∈ m, x = none) → realError m = none) ∧
    (∀ (m : List (Option DSErr)) (e : DSErr), uniformB m = true →
      m.getD 0 none = some e → isItemizedAlways e = true →
      realError m = some (GoErr.multi m)) ∧
    (∀ (m : List (Option DSErr)) (e : DSErr), uniformB m = true →
      m.getD 0 none = some e → isItemizedAlways e = false →
      realError m = some (GoErr.simple e)) ∧
    (∀ m : List (Option DSErr), uniformB m = false →
      realError m = some (GoErr.multi m)) := by
  refine ⟨rfl, ?_, ?_, ?_, ?_⟩
  · intro m h
    cases m with
    | nil => rfl
    | cons init rest =>
      have hinit : init = none := h init (List.mem_cons_self init rest)
      subst hinit
      have hall : rest.all (fun e => agreeErr none e) = true := by
        rw [List.all_eq_true]
        intro e he
        rw [h e (List.mem_cons_of_mem none he)]
        rfl
      simp [realError, hall]
  · intro m e hu h0 hkind
    cases m with
    | nil => simp at h0
    | cons init rest =>
      have hinit : init = some e := h0
      subst hinit
      rw [uniformB_cons] at hu
      have hkind' : (e.isFieldMismatch || e == DSErr.invalidEntityType
          || e == DSErr.noSuchEntity) = true := by
        simpa [isItemizedAlways] using hkind
      simp [realError, hu, hkind']
  · intro m e hu h0 hkind
    cases m with
    | nil => simp at h0
    | cons init rest =>
      have hinit : init = some e := h0
      subst hinit
      rw [uniformB_cons] at hu
      have hkind' : (e.isFieldMismatch || e == DSErr.invalidEntityType
          || e == DSErr.noSuchEntity) = false := by
        simpa [isItemizedAlways] using hkind
      simp [realError, hu, hkind']
  · intro m hu
    cases m with
    | nil => rw [uniformB] at hu; simp at hu
    | cons init rest =>
      rw [uniformB_cons] at hu
      simp [realError, hu]

/-- Witness for C1: the collapse rules evaluated on concrete outcome
arrays: all-nil, uniform not-found, uniform malformed-key, and mixed. -/
theorem C1_collapse_rules_witness :
    realError [none, none, none] = none ∧
    realError [some DSErr.noSuchEntity, some DSErr.noSuchEntity]
      = some (GoErr.multi [some DSErr.noSuchEntity, some DSErr.noSuchEntity]) ∧
    realError [some (DSErr.other "bad key"), some (DSErr.other "bad key")]
      = some (GoErr.simple (DSErr.other "bad key")) ∧
    realError [none, some (DSErr.other "a"), some (DSErr.other "b")]
      = some (GoErr.multi [none, some (DSErr.other "a"), some (DSErr.other "b")]) :=
  ⟨C1_collapse_rules.2.1 [none, none, none] (by decide),
   C1_collapse_rules.2.2.1 [some DSErr.noSuchEntity, some DSErr.noSuchEntity]
     DSErr.noSuchEntity (by decide) (by decide) (by decide),
   C1_collapse_rules.2.2.2.1 [some (DSErr.other "bad key"), some (DSErr.other "bad key")]
     (DSErr.other "bad key") (by decide) (by decide) (by decide),
   C1_collapse_rules.2.2.2.2 [none, some (DSErr.other "a"), some (DSErr.other "b")]
     (by decide)⟩

/-- C2 (amended): for a positive batch size the chunk plan of `PutMulti`
and `DeleteMulti` has exactly `ceil (n / L)` contiguous ranges, each of
length at most `L`, covering `[0, n)` exactly once; for the empty batch
`DeleteMulti` plans nothing, but `PutMulti` plans one empty chunk
`[0, 0)` (and issues the corresponding service call). -/
theorem C2_chunk_plan_properties :
    (∀ n L : Nat, 0 < L → 0 < n →
      (chunksOf n L).length = (n + L - 1) / L ∧
      (∀ c ∈ chunksOf n L, c.2 - c.1 ≤ L) ∧
      joinChunks (chunksOf n L) = List.range n) ∧
    (∀ n : Nat, putMultiPlan n = chunksOf n putMultiLimit) ∧
    (∀ n : Nat, 0 < n → deleteMultiPlan n = chunksOf n deleteMultiLimit) ∧
    deleteMultiPlan 0 = [] ∧
    putMultiPlan 0 = [(0, 0)] := by
  refine ⟨?_, fun n => rfl, ?_, rfl, by decide⟩
  · intro n L hL hn
    refine ⟨?_, ?_, joinChunks_chunksOf n L hL hn⟩
    · rw [chunksOf_length, numGoroutines_eq n L hn,
        show n + L - 1 = (n - 1) + L by omega, Nat.add_div_right _ hL]
    · intro c hc
      rw [chunksOf] at hc
      obtain ⟨i, _, rfl⟩ := List.mem_map.mp hc
      show min ((i + 1) * L) n - i * L ≤ L
      have h1 : (i + 1) * L = i * L + L := by ring
      omega
  · intro n hn
    rw [deleteMultiPlan, if_neg (by omega)]

/-- Counterexample for C2 as stated: at batch size 0 the claim demands an
empty plan (`ceil (0/500) = 0` chunks) and no service call, but
`PutMulti`'s plan has one chunk and one service call is issued even for an
empty batch whose keys extract successfully. -/
theorem C2_chunk_plan_counterexample :
    (putMultiPlan 0).length = 1 ∧ (0 + 500 - 1) / 500 = 0 ∧
    putMultiCalls (fun _ : Unit => Resolution.failed "") ([] : List Unit) = 1 := by
  decide

/-- Witness for C2's amended statement at batch size 7 and limit 3. -/
theorem C2_chunk_plan_properties_witness :
    (chunksOf 7 3).length = (7 + 3 - 1) / 3 ∧
    (∀ c ∈ chunksOf 7 3, c.2 - c.1 ≤ 3) ∧
    joinChunks (chunksOf 7 3) = List.range 7 ∧
    deleteMultiPlan 7 = chunksOf 7 deleteMultiLimit :=
  ⟨(C2_chunk_plan_properties.1 7 3 (by decide) (by decide)).1,
   (C2_chunk_plan_properties.1 7 3 (by decide) (by decide)).2.1,
   (C2_chunk_plan_properties.1 7 3 (by decide) (by decide)).2.2,
   C2_chunk_plan_properties.2.2.1 7 (by decide)⟩

/-- C3 (code bug): for a batch of 1200 keys the chunked read path plans a
single chunk over the never-populated internal `dskeys` slice, dispatches
no key at all to the service, and returns nil — not the claimed 2 chunk
calls covering all 1200 keys. -/
theorem C3_getmulti_dispatch_bug :
    batch1200.length = 1200 ∧
    (getMultiPlan batch1200).length = 1 ∧
    getMultiDispatchedKeys batch1200 = [[]] ∧
    getMultiNonTxn true svcNotFound batch1200 = none := by
  refine ⟨?_, rfl, rfl, rfl⟩
  rw [batch1200, List.length_map, List.length_range]

/-- C4: on put requests, elements with incomplete keys and no explicit
string identity are accepted and the call proceeds to dispatch, while an
element with an incomplete key that explicitly set a string identity fails
the whole call with the empty-string-id error before any service call. -/
theorem C4_put_identity_rules :
    ∀ (α : Type) (gk : α → Resolution) (src : List α),
      ((∀ x ∈ src, (gk x).isResolved = true ∧ (gk x).incompleteWithStringID = false) →
        ∃ keys, extractKeys gk src true = Except.ok keys ∧ keys.length = src.length ∧
          putMultiCalls gk src = numGoroutines src.length putMultiLimit) ∧
      ((∀ x ∈ src, (gk x).isResolved = true) →
        (∃ x ∈ src, (gk x).incompleteWithStringID = true) →
        extractKeys gk src true = Except.error GErr.emptyStringIdentity ∧
        putMultiCalls gk src = 0) := by
  intro α gk src
  constructor
  · intro h
    obtain ⟨keys, hk, hlen⟩ := extractKeys_put_ok gk src h
    refine ⟨keys, hk, hlen, ?_⟩
    simp [putMultiCalls, hk, putMultiPlan, chunksOf_length, hlen]
  · intro h1 h2
    have he := extractKeys_put_empty gk src h1 h2
    exact ⟨he, by simp [putMultiCalls, he]⟩

/-- Witness for C4: a one-element batch with an incomplete keyless element
is accepted; adding an element with an explicitly empty string identity
fails the whole call with zero service calls. -/
theorem C4_put_identity_rules_witness :
    (∃ keys, extractKeys gkPutFixture [0] true = Except.ok keys ∧
      keys.length = [0].length ∧
      putMultiCalls gkPutFixture [0] = numGoroutines [0].length putMultiLimit) ∧
    (extractKeys gkPutFixture [0, 1] true = Except.error GErr.emptyStringIdentity ∧
      putMultiCalls gkPutFixture [0, 1] = 0) :=
  ⟨(C4_put_identity_rules Nat gkPutFixture [0]).1 (by decide),
   (C4_put_identity_rules Nat gkPutFixture [0, 1]).2 (by decide) (by decide)⟩

/-- C5: on read requests, any element with an incomplete key fails the
whole call with the missing-identity error naming an offending element,
and no chunk is dispatched. -/
theorem C5_get_missing_identity :
    ∀ (α : Type) (gk : α → Resolution) (src : List α),
      (∀ x ∈ src, (gk x).isResolved = true) →
      (∃ x ∈ src, (gk x).keyIncomplete = true) →
      (∃ x ∈ src, (gk x).keyIncomplete = true ∧
        extractKeys gk src false = Except.error (GErr.missingIdentity x)) ∧
      getMultiCallCount gk src = 0 := by
  intro α gk src h1 h2
  obtain ⟨x, hx, hxi, hxe⟩ := extractKeys_get_missing gk src h1 h2
  exact ⟨⟨x, hx, hxi, hxe⟩, by simp [getMultiCallCount, hxe]⟩

/-- Witness for C5: a two-element read batch whose second element derives
an incomplete key fails with the missing-identity error and dispatches
nothing. -/
theorem C5_get_missing_identity_witness :
    (∃ x ∈ [0, 1], (gkGetFixture x).keyIncomplete = true ∧
      extractKeys gkGetFixture [0, 1] false = Except.error (GErr.missingIdentity x)) ∧
    getMultiCallCount gkGetFixture [0, 1] = 0 :=
  C5_get_missing_identity Nat gkGetFixture [0, 1] (by decide) (by decide)

/-- C6: the outcome array of the chunked dispatcher always has one slot per
input element (as does the in-transaction read path's array); a chunk that
fails with a single non-itemized error has that error broadcast to every
index of its range; a chunk that fails with an itemized error has each
element's error copied to its global index; and the in-transaction read
path broadcasts a single non-itemized error over the whole batch before
collapsing. -/
theorem C6_outcome_array_shape :
    ∀ (svc : Nat → Nat → Option SvcResp) (n L : Nat), 0 < L →
      (dispatchErrs svc n L).length = n ∧
      (∀ (ig : Bool) (n2 : Nat) (merr : List (Option DSErr)),
        (txnSlots ig n2 merr).length = n2) ∧
      (∀ (i : Nat) (e : DSErr), i < (chunksOf n L).length →
        svc (i * L) (min ((i + 1) * L) n) = some (SvcResp.single e) →
        ∀ j, i * L ≤ j → j < min ((i + 1) * L) n →
          (dispatchErrs svc n L)[j]? = some (some e)) ∧
      (∀ (i : Nat) (merr : List (Option DSErr)), i < (chunksOf n L).length →
        svc (i * L) (min ((i + 1) * L) n) = some (SvcResp.itemized merr) →
        ∀ k, k < min ((i + 1) * L) n - i * L → k < merr.length →
          (dispatchErrs svc n L)[i * L + k]? = some (merr.getD k none)) ∧
      (∀ (ig : Bool) (n2 : Nat) (e : DSErr),
        txnGetMulti ig n2 (some (SvcResp.single e))
          = realError (List.replicate n2 (some e))) := by
  intro svc n L hL
  refine ⟨dispatchErrs_length svc n L, fun ig n2 merr => by simp [txnSlots], ?_, ?_,
    fun ig n2 e => rfl⟩
  · intro i e _ hsvc j hj1 hj2
    have hjn : j < n := lt_of_lt_of_le hj2 (min_le_right _ _)
    have hdiv : j / L = i := by
      apply Nat.div_eq_of_lt_le hj1
      exact lt_of_lt_of_le hj2 (min_le_left _ _)
    rw [dispatchErrs_getElem? svc n L hL j hjn, hdiv, hsvc]
    simp [stepFn, hj1, hj2]
  · intro i merr _ hsvc k hk1 hk2
    have hjn : i * L + k < n := by omega
    have hmul : (i + 1) * L = i * L + L := by ring
    have hdiv : (i * L + k) / L = i := by
      apply Nat.div_eq_of_lt_le (Nat.le_add_right _ _)
      omega
    rw [dispatchErrs_getElem? svc n L hL _ hjn, hdiv, hsvc]
    have hc1 : i * L ≤ i * L + k := Nat.le_add_right _ _
    have hc2 : i * L + k < min ((i + 1) * L) n := by omega
    have hc3 : i * L + k - i * L = k := by omega
    simp [stepFn, hc1, hc2, hc3, hk2]

/-- Witness for C6 at batch size 3 with limit 2 and a service failing the
first chunk with a single error and the second with an itemized one. -/
theorem C6_outcome_array_shape_witness :
    (dispatchErrs svcFixture 3 2).length = 3 ∧
    (dispatchErrs svcFixture 3 2)[1]? = some (some (DSErr.other "boom")) ∧
    (dispatchErrs svcFixture 3 2)[1 * 2 + 0]?
      = some ([some DSErr.noSuchEntity].getD 0 none) ∧
    txnGetMulti true 2 (some (SvcResp.single (DSErr.other "x")))
      = realError (List.replicate 2 (some (DSErr.other "x"))) := by
  have h := C6_outcome_array_shape svcFixture 3 2 (by decide)
  exact ⟨h.1,
    h.2.2.1 0 (DSErr.other "boom") (by decide) (by decide) 1 (by decide) (by decide),
    h.2.2.2.1 1 [some DSErr.noSuchEntity] (by decide) (by decide) 0 (by decide) (by decide),
    h.2.2.2.2 true 2 (DSErr.other "x")⟩

/-- C7: with the schema-drift toggle on, a field-mismatch outcome is
rewritten to nil at every outcome-producing site — the shared per-slot
filter of the read paths, the GetAll scalar filter, Iterator.Next, the
in-transaction outcome array, and the chunked itemized merge — and with
the toggle off the same error is surfaced at its index; non-mismatch
errors are never filtered. -/
theorem C7_field_mismatch_filter :
    ∀ st f r : String,
      (keepErr true (some (DSErr.fieldMismatch st f r)) = none ∧
        keepErr false (some (DSErr.fieldMismatch st f r))
          = some (DSErr.fieldMismatch st f r)) ∧
      (getAllFilter true (some (DSErr.fieldMismatch st f r)) = none ∧
        getAllFilter false (some (DSErr.fieldMismatch st f r))
          = some (DSErr.fieldMismatch st f r)) ∧
      (∀ (k : DKey) (dp : Bool) (se : Option DSErr),
        (iterNext true k (some (DSErr.fieldMismatch st f r)) dp se).err = none ∧
        (iterNext false k (some (DSErr.fieldMismatch st f r)) dp se).err
          = some (DSErr.fieldMismatch st f r)) ∧
      (∀ (n : Nat) (merr : List (Option DSErr)) (i : Nat), i < n →
        merr.getD i none = some (DSErr.fieldMismatch st f r) →
        (txnSlots true n merr).getD i none = none ∧
        (txnSlots false n merr).getD i none = some (DSErr.fieldMismatch st f r)) ∧
      (∀ (m : List (Option DSErr)) (idx : Nat),
        applyItemized true [some (DSErr.fieldMismatch st f r)] [idx] m = m ∧
        applyItemized false [some (DSErr.fieldMismatch st f r)] [idx] m
          = m.set idx (some (DSErr.fieldMismatch st f r))) ∧
      (∀ e2 : DSErr, e2.isFieldMismatch = false →
        keepErr true (some e2) = some e2 ∧ getAllFilter true (some e2) = some e2) := by
  intro st f r
  refine ⟨⟨rfl, rfl⟩, ⟨rfl, rfl⟩, fun k dp se => ⟨rfl, rfl⟩, ?_, fun m idx => ⟨rfl, rfl⟩, ?_⟩
  · intro n merr i hi hslot
    rw [txnSlots_getD true n merr i hi, txnSlots_getD false n merr i hi, hslot]
    exact ⟨rfl, rfl⟩
  · intro e2 h2
    constructor
    · simp [keepErr, h2]
    · simp [getAllFilter, h2]

/-- Witness for C7 with a concrete field-mismatch error, a concrete
outcome array and a concrete non-mismatch error. -/
theorem C7_field_mismatch_filter_witness :
    (txnSlots true 1 [some (DSErr.fieldMismatch "S" "f" "broken")]).getD 0 none = none ∧
    (txnSlots false 1 [some (DSErr.fieldMismatch "S" "f" "broken")]).getD 0 none
      = some (DSErr.fieldMismatch "S" "f" "broken") ∧
    keepErr true (some (DSErr.other "rpc")) = some (DSErr.other "rpc") ∧
    getAllFilter true (some (DSErr.other "rpc")) = some (DSErr.other "rpc") :=
  ⟨((C7_field_mismatch_filter "S" "f" "broken").2.2.2.1 1
      [some (DSErr.fieldMismatch "S" "f" "broken")] 0 (by decide) (by decide)).1,
   ((C7_field_mismatch_filter "S" "f" "broken").2.2.2.1 1
      [some (DSErr.fieldMismatch "S" "f" "broken")] 0 (by decide) (by decide)).2,
   ((C7_field_mismatch_filter "S" "f" "broken").2.2.2.2.2 (DSErr.other "rpc")
      (by decide)).1,
   ((C7_field_mismatch_filter "S" "f" "broken").2.2.2.2.2 (DSErr.other "rpc")
      (by decide)).2⟩

/-- C8 (code bug): a single `Get` of a complete key the service reports
absent returns nil rather than a not-found outcome — the chunked read path
never consults the service for the requested key — so `NotFound (err, 0)`
is false; the in-transaction path shows the intended behavior, producing
the itemized not-found outcome with `NotFound (err, 0)` true. -/
theorem C8_get_absent_bug :
    (DKey.mk "Widget" "w1" 0).incomplete = false ∧
    getOutcome true svcNotFound (DKey.mk "Widget" "w1" 0) = none ∧
    NotFound (getOutcome true svcNotFound (DKey.mk "Widget" "w1" 0)) 0 = false ∧
    txnGetMulti true 1 (some (SvcResp.itemized [some DSErr.noSuchEntity]))
      = some (GoErr.multi [some DSErr.noSuchEntity]) ∧
    NotFound (txnGetMulti true 1 (some (SvcResp.itemized [some DSErr.noSuchEntity]))) 0
      = true := by
  decide

/-- C9: `Iterator.Next` never lets a key-stamping failure reach the caller:
the returned key and error do not depend on the `setStructKey` outcome, and
when the cursor error passes the filter the caller receives the key with a
nil error even though the destination was not stamped. -/
theorem C9_next_silent_stamp_failure :
    ∀ (ig : Bool) (k : DKey) (rawErr : Option DSErr) (dp : Bool)
      (se1 se2 : Option DSErr),
      ((iterNext ig k rawErr dp se1).key = (iterNext ig k rawErr dp se2).key ∧
        (iterNext ig k rawErr dp se1).err = (iterNext ig k rawErr dp se2).err) ∧
      (∀ e : DSErr, keepErr ig rawErr = none →
        iterNext ig k rawErr true (some e) = ⟨k, none, false⟩) := by
  intro ig k rawErr dp se1 se2
  constructor
  · cases rawErr with
    | none => simp [iterNext]
    | some e' => cases ig <;> cases hm : e'.isFieldMismatch <;> simp [iterNext, hm]
  · intro e h
    cases rawErr with
    | none => cases ig <;> simp [iterNext]
    | some e' =>
      cases ig with
      | false => simp [keepErr] at h
      | true =>
        cases hm : e'.isFieldMismatch with
        | false => simp [keepErr, hm] at h
        | true => simp [iterNext, hm]

/-- Witness for C9: a tolerated field-mismatch cursor outcome with a
destination present and a failing `setStructKey` still yields the key with
a nil error and an unstamped destination. -/
theorem C9_next_silent_stamp_failure_witness :
    iterNext true (DKey.mk "T" "a" 0) (some (DSErr.fieldMismatch "T" "f" "gone"))
      true (some (DSErr.other "stamp failed"))
      = ⟨DKey.mk "T" "a" 0, none, false⟩ :=
  (C9_next_silent_stamp_failure true (DKey.mk "T" "a" 0)
      (some (DSErr.fieldMismatch "T" "f" "gone")) true none none).2
    (DSErr.other "stamp failed") (by decide)

/-- C10: `NotFound` is total and returns true exactly when the error is an
itemized MultiError with the queried index in range and that slot equal to
the not-found sentinel. -/
theorem C10_notfound_characterization :
    ∀ (err : Option GoErr) (idx : Nat),
      NotFound err idx = true ↔
        ∃ merr, err = some (GoErr.multi merr) ∧ idx < merr.length ∧
          merr.getD idx none = some DSErr.noSuchEntity := by
  intro err idx
  cases err with
  | none => simp [NotFound]
  | some g =>
    cases g with
    | simple e => simp [NotFound]
    | multi merr => simp [NotFound]
